import Mathlib

set_option autoImplicit false

/-!
Shallow embedding of the Moltbook Agent Privacy Layer (DID issuance and
validation, channel lifecycle, invitations, access control, message
validation, TTL expiry, statistics, and message listing), together with
theorems settling the specification claims against it.

Machine integers are modelled as `Nat`/`Int` with explicit `% 2^32` where
the source performs 32-bit arithmetic (SHA-256).  JavaScript truthiness on
optional numbers and strings (`if (x)`) is modelled explicitly: `0`,
`""` and `undefined` are falsy.  `Date.now()` is passed in as a `now`
parameter; random identifier generation is passed in as a function
parameter.  Throwing functions return `Except String`.
-/

namespace Moltbook

/-! ## SHA-256 (crypto.ts `sha256`), base64 (`arrayBufferToBase64`), UTF-8 -/

/-- 32-bit truncation, as in all SHA-256 word arithmetic. -/
def mod32 (n : Nat) : Nat := n % 4294967296

/-- 32-bit right rotation. -/
def rotr32 (n x : Nat) : Nat :=
  mod32 ((x >>> n) ||| (x <<< (32 - n)))

/-- 32-bit addition. -/
def add32 (a b : Nat) : Nat := mod32 (a + b)

/-- SHA-256 small sigma 0. -/
def ssig0 (x : Nat) : Nat := (rotr32 7 x) ^^^ (rotr32 18 x) ^^^ (x >>> 3)

/-- SHA-256 small sigma 1. -/
def ssig1 (x : Nat) : Nat := (rotr32 17 x) ^^^ (rotr32 19 x) ^^^ (x >>> 10)

/-- SHA-256 big Sigma 0. -/
def bsig0 (x : Nat) : Nat := (rotr32 2 x) ^^^ (rotr32 13 x) ^^^ (rotr32 22 x)

/-- SHA-256 big Sigma 1. -/
def bsig1 (x : Nat) : Nat := (rotr32 6 x) ^^^ (rotr32 11 x) ^^^ (rotr32 25 x)

/-- SHA-256 round constants. -/
def K256 : List Nat :=
  [1116352408, 1899447441, 3049323471, 3921009573, 961987163,
   1508970993, 2453635748, 2870763221, 3624381080, 310598401,
   607225278, 1426881987, 1925078388, 2162078206, 2614888103,
   3248222580, 3835390401, 4022224774, 264347078, 604807628,
   770255983, 1249150122, 1555081692, 1996064986, 2554220882,
   2821834349, 2952996808, 3210313671, 3336571891, 3584528711,
   113926993, 338241895, 666307205, 773529912, 1294757372,
   1396182291, 1695183700, 1986661051, 2177026350, 2456956037,
   2730485921, 2820302411, 3259730800, 3345764771, 3516065817,
   3600352804, 4094571909, 275423344, 430227734, 506948616,
   659060556, 883997877, 958139571, 1322822218, 1537002063,
   1747873779, 1955562222, 2024104815, 2227730452, 2361852424,
   2428436474, 2756734187, 3204031479, 3329325298]

/-- SHA-256 initial hash value. -/
def H256 : List Nat :=
  [1779033703, 3144134277, 1013904242, 2773480762,
   1359893119, 2600822924, 528734635, 1541459225]

/-- Big-endian bytes of `n`, `len` bytes wide. -/
def beBytes (n len : Nat) : List Nat :=
  (List.range len).map (fun i => (n >>> (8 * (len - 1 - i))) % 256)

/-- SHA-256 message padding: append 0x80, zeros to 56 mod 64, then the
bit length as 8 big-endian bytes. -/
def padBytes (msg : List Nat) : List Nat :=
  let L := msg.length
  let z := (119 - (L % 64)) % 64
  msg ++ [0x80] ++ List.replicate z 0 ++ beBytes (L * 8) 8

/-- Group bytes into big-endian 32-bit words. -/
def bytesToWords : List Nat → List Nat
  | a :: b :: c :: d :: rest => (((a * 256 + b) * 256 + c) * 256 + d) :: bytesToWords rest
  | _ => []

/-- Split a byte list into 64-byte chunks (fuel-indexed for termination). -/
def chunksAux : Nat → List Nat → List (List Nat)
  | 0, _ => []
  | _, [] => []
  | fuel + 1, l => l.take 64 :: chunksAux fuel (l.drop 64)

/-- Split a byte list into 64-byte chunks. -/
def chunks64 (l : List Nat) : List (List Nat) := chunksAux l.length l

/-- Extend the 16 schedule words to 64, appending `fuel` more words. -/
def extendWordsAux : Nat → Array Nat → Array Nat
  | 0, ws => ws
  | fuel + 1, ws =>
    let i := ws.size
    let w := mod32 (ws.getD (i - 16) 0 + ssig0 (ws.getD (i - 15) 0) +
                    ws.getD (i - 7) 0 + ssig1 (ws.getD (i - 2) 0))
    extendWordsAux fuel (ws.push w)

/-- The 64-word message schedule of a block. -/
def extendWords (ws : List Nat) : List Nat :=
  (extendWordsAux 48 ws.toArray).toList

/-- SHA-256 working state: one compression round. -/
def sha256Round (st : Nat × Nat × Nat × Nat × Nat × Nat × Nat × Nat) (k w : Nat) :
    Nat × Nat × Nat × Nat × Nat × Nat × Nat × Nat :=
  match st with
  | (a, b, c, d, e, f, g, h) =>
    let ch := (e &&& f) ^^^ ((e ^^^ 4294967295) &&& g)
    let temp1 := mod32 (h + bsig1 e + ch + k + w)
    let maj := (a &&& b) ^^^ (a &&& c) ^^^ (b &&& c)
    let temp2 := mod32 (bsig0 a + maj)
    (mod32 (temp1 + temp2), a, b, c, mod32 (d + temp1), e, f, g)

/-- Run the 64 compression rounds over paired constants and schedule words. -/
def sha256Rounds : (Nat × Nat × Nat × Nat × Nat × Nat × Nat × Nat) →
    List Nat → List Nat → Nat × Nat × Nat × Nat × Nat × Nat × Nat × Nat
  | st, k :: ks, w :: ws => sha256Rounds (sha256Round st k w) ks ws
  | st, _, _ => st

/-- Compress one 64-byte block into the running hash (8 words). -/
def sha256Block (h : List Nat) (block : List Nat) : List Nat :=
  let ws := extendWords (bytesToWords block)
  match h with
  | [h0, h1, h2, h3, h4, h5, h6, h7] =>
    match sha256Rounds (h0, h1, h2, h3, h4, h5, h6, h7) K256 ws with
    | (a, b, c, d, e, f, g, hh) =>
      [add32 h0 a, add32 h1 b, add32 h2 c, add32 h3 d,
       add32 h4 e, add32 h5 f, add32 h6 g, add32 h7 hh]
  | _ => h

/-- SHA-256 digest of a byte list, as 32 bytes. -/
def sha256Bytes (msg : List Nat) : List Nat :=
  let final := (chunks64 (padBytes msg)).foldl sha256Block H256
  final.foldr (fun w acc => beBytes w 4 ++ acc) []

/-- UTF-8 encoding of one character (as `TextEncoder` produces). -/
def utf8EncodeChar (ch : Char) : List Nat :=
  let n := ch.toNat
  if n < 0x80 then [n]
  else if n < 0x800 then [0xc0 + n / 64, 0x80 + n % 64]
  else if n < 0x10000 then
    [0xe0 + n / 4096, 0x80 + (n / 64) % 64, 0x80 + n % 64]
  else
    [0xf0 + n / 262144, 0x80 + (n / 4096) % 64, 0x80 + (n / 64) % 64, 0x80 + n % 64]

/-- UTF-8 bytes of a string. -/
def utf8Bytes (s : String) : List Nat :=
  (s.data.map utf8EncodeChar).foldr (· ++ ·) []

/-- The base64 alphabet used by `btoa`. -/
def b64Alphabet : List Char :=
  "ABCDEFGHIJKLMNOPQRSTUVWXYZabcdefghijklmnopqrstuvwxyz0123456789+/".data

/-- One base64 digit. -/
def b64Char (n : Nat) : Char := b64Alphabet.getD n 'A'

/-- Base64 encoding of bytes, with `=` padding, as `arrayBufferToBase64`
(via `btoa`) produces. -/
def b64Aux : List Nat → List Char
  | [] => []
  | [a] => [b64Char (a >>> 2), b64Char ((a % 4) <<< 4), '=', '=']
  | [a, b] => [b64Char (a >>> 2), b64Char (((a % 4) <<< 4) + (b >>> 4)),
               b64Char ((b % 16) <<< 2), '=']
  | a :: b :: c :: rest =>
      b64Char (a >>> 2) :: b64Char (((a % 4) <<< 4) + (b >>> 4)) ::
      b64Char (((b % 16) <<< 2) + (c >>> 6)) :: b64Char (c % 64) :: b64Aux rest

/-- `arrayBufferToBase64` composed over a byte list. -/
def arrayBufferToBase64 (bytes : List Nat) : String :=
  String.mk (b64Aux bytes)

/-- crypto.ts `sha256` on a string input: UTF-8 encode, digest, base64. -/
def sha256 (data : String) : String :=
  arrayBufferToBase64 (sha256Bytes (utf8Bytes data))

/-! ## DID module (did.ts)

String primitives (`split(':')`, `slice(0, 32)`, `startsWith`) are embedded
as structural recursions over the character list so the kernel can
evaluate them. -/

/-- The first `n` characters of a string (JS `slice(0, n)`). -/
def strTake (s : String) (n : Nat) : String := String.mk (s.data.take n)

/-- Split a character list at every occurrence of `sep`, JS `split(sep)`
semantics (empty segments kept). -/
def splitCharsAux (sep : Char) : List Char → List Char → List (List Char)
  | [], acc => [acc.reverse]
  | c :: rest, acc =>
    if c.toNat == sep.toNat then acc.reverse :: splitCharsAux sep rest []
    else splitCharsAux sep rest (c :: acc)

/-- JS `String.prototype.split` with a one-character separator. -/
def splitOnChar (sep : Char) (s : String) : List String :=
  (splitCharsAux sep s.data []).map String.mk

/-- JS `String.prototype.startsWith`. -/
def strStartsWith (s p : String) : Bool :=
  s.data.take p.data.length == p.data

/-- did.ts `DID_METHOD`. -/
def DID_METHOD : String := "moltbook"

/-- did.ts `generateDID`: hash the public key and keep the first 32
characters of the (base64) hash string, after the `did:moltbook:` tag. -/
def generateDID (publicKey : String) : String :=
  let hash := sha256 publicKey
  let identifier := strTake hash 32
  "did:" ++ DID_METHOD ++ ":" ++ identifier

/-- did.ts `parseDID`: requires the `did:` tag in front and exactly three
colon-separated parts; returns method and identifier. -/
def parseDID (did : String) : Option (String × String) :=
  if !strStartsWith did "did:" then none
  else
    let parts := splitOnChar ':' did
    if parts.length ≠ 3 then none
    else some (parts.getD 1 "", parts.getD 2 "")

/-- One character of the class `[a-f0-9]`. -/
def isHexLowerChar (c : Char) : Bool :=
  (97 ≤ c.toNat && c.toNat ≤ 102) || (48 ≤ c.toNat && c.toNat ≤ 57)

/-- did.ts `isValidDID`: parse succeeds, method is `moltbook`, identifier
matches `^[a-f0-9]{32}$`. -/
def isValidDID (did : String) : Bool :=
  match parseDID did with
  | none => false
  | some (method, identifier) =>
    method == DID_METHOD &&
    identifier.data.length == 32 && identifier.data.all isHexLowerChar

/-! ## Data model (types.ts) -/

/-- types.ts `NFTCredential`. -/
structure NFTCredential where
  contract : String
  assetId : String
  schema : String
  verified : Bool
  verifiedAt : Option Nat
deriving DecidableEq, Repr

/-- types.ts `AgentProfile`.  `metadata` is an opaque string map, embedded
as an association list. -/
structure AgentProfile where
  name : Option String
  capabilities : List String
  reputation : Int
  nftCredentials : Option (List NFTCredential)
  metadata : Option (List (String × String))
deriving DecidableEq, Repr

/-- types.ts `MoltbookAgent`. -/
structure MoltbookAgent where
  did : String
  publicKey : String
  createdAt : Nat
  profile : AgentProfile
deriving DecidableEq, Repr

/-- The three access-control tags of types.ts `AccessControl.type`. -/
inductive ACType where
  | acOpen
  | inviteOnly
  | nftGated
deriving DecidableEq, Repr

/-- types.ts `NFTGate`. -/
structure NFTGate where
  contract : String
  schema : Option String
  minAmount : Option Nat
deriving DecidableEq, Repr

/-- types.ts `AccessControl`. -/
structure AccessControl where
  actype : ACType
  nftGate : Option NFTGate
  allowedDIDs : Option (List String)
deriving DecidableEq, Repr

/-- types.ts `ChannelMetadata`. -/
structure ChannelMetadata where
  name : Option String
  description : Option String
  maxParticipants : Option Nat
  ttl : Option Nat
deriving DecidableEq, Repr

/-- types.ts `EncryptionConfig` (the `type` and `algorithm` literals are
carried verbatim). -/
structure EncryptionConfig where
  etype : String
  algorithm : String
  keyRotationInterval : Option Nat
deriving DecidableEq, Repr

/-- types.ts `PrivateChannel`. -/
structure PrivateChannel where
  id : String
  participants : List String
  createdAt : Nat
  createdBy : String
  encryption : EncryptionConfig
  accessControl : Option AccessControl
  metadata : Option ChannelMetadata
deriving DecidableEq, Repr

/-- types.ts `ChannelInvitation.status`. -/
inductive InvStatus where
  | pending
  | accepted
  | rejected
  | expired
deriving DecidableEq, Repr

/-- types.ts `ChannelInvitation`. -/
structure ChannelInvitation where
  id : String
  channelId : String
  inviter : String
  invitee : String
  createdAt : Nat
  expiresAt : Nat
  encryptedChannelKey : String
  status : InvStatus
deriving DecidableEq, Repr

/-- types.ts `EncryptedMessage`. -/
structure EncryptedMessage where
  id : String
  channelId : String
  sender : String
  timestamp : Nat
  nonce : String
  ciphertext : String
  ephemeralPubKey : Option String
deriving DecidableEq, Repr

/-- types.ts `SendMessageRequest`.  A missing field and an empty string are
both falsy in the source's checks, so required string fields are embedded
as `String` with `""` standing for absent. -/
structure SendMessageRequest where
  channelId : String
  nonce : String
  ciphertext : String
  ephemeralPubKey : Option String
deriving DecidableEq, Repr

/-- types.ts `CreateChannelRequest` (only the `keyRotationInterval` part of
the partial encryption config is ever read by the code). -/
structure CreateChannelRequest where
  participants : List String
  keyRotationInterval : Option Nat
  accessControl : Option AccessControl
  metadata : Option ChannelMetadata
deriving DecidableEq, Repr

/-- JS truthiness of an optional number (`undefined` and `0` are falsy). -/
def natOptTruthy : Option Nat → Bool
  | none => false
  | some n => n != 0

/-- JS truthiness of an optional string (`undefined` and `""` are falsy). -/
def strOptTruthy : Option String → Bool
  | none => false
  | some s => s != ""

/-! ## Agent operations (did.ts) -/

/-- A `Partial<AgentProfile>`: `some` marks a field present in the update
object.  `reputation` is carried because the caller may supply it (the
update function discards it). -/
structure ProfileUpdates where
  name : Option String
  capabilities : Option (List String)
  reputation : Option Int
  nftCredentials : Option (List NFTCredential)
  metadata : Option (List (String × String))
deriving DecidableEq, Repr

/-- did.ts `updateAgentProfile`: spread the updates over the profile, then
restore the original reputation. -/
def updateAgentProfile (agent : MoltbookAgent) (updates : ProfileUpdates) :
    MoltbookAgent :=
  { agent with
    profile :=
      { name :=
          match updates.name with
          | some s => some s
          | none => agent.profile.name
        capabilities := updates.capabilities.getD agent.profile.capabilities
        reputation := agent.profile.reputation
        nftCredentials :=
          match updates.nftCredentials with
          | some l => some l
          | none => agent.profile.nftCredentials
        metadata :=
          match updates.metadata with
          | some m => some m
          | none => agent.profile.metadata } }

/-- did.ts `adjustReputation`: add the delta and clamp into `[0, 100]`. -/
def adjustReputation (agent : MoltbookAgent) (delta : Int) : MoltbookAgent :=
  let newReputation := max 0 (min 100 (agent.profile.reputation + delta))
  { agent with profile := { agent.profile with reputation := newReputation } }

/-- did.ts `hasVerifiedNFT`: some credential is verified, on the requested
contract, and (when a truthy schema is requested) on that schema. -/
def hasVerifiedNFT (agent : MoltbookAgent) (contract : String)
    (schema : Option String) : Bool :=
  (agent.profile.nftCredentials.getD []).any fun c =>
    c.verified && c.contract == contract &&
    (if strOptTruthy schema then c.schema == schema.getD "" else true)

/-! ## Channel operations (channels.ts) -/

/-- The `{allowed, reason?}` decision record of `canAccessChannel`. -/
structure AccessDecision where
  allowed : Bool
  reason : Option String
deriving DecidableEq, Repr

/-- Count of verified credentials matching an NFT gate, as computed inline
in `canAccessChannel`'s minimum-amount branch. -/
def countMatchingNFTs (agent : MoltbookAgent) (gate : NFTGate) : Nat :=
  ((agent.profile.nftCredentials.getD []).filter fun c =>
    c.verified && c.contract == gate.contract &&
    (if strOptTruthy gate.schema then c.schema == gate.schema.getD "" else true)).length

/-- channels.ts `canAccessChannel`. -/
def canAccessChannel (channel : PrivateChannel) (agent : MoltbookAgent) :
    AccessDecision :=
  if channel.participants.contains agent.did then ⟨true, none⟩
  else
    match channel.accessControl with
    | none => ⟨false, some "Not a participant"⟩
    | some ac =>
      match ac.actype with
      | .acOpen => ⟨true, none⟩
      | .inviteOnly =>
        if (ac.allowedDIDs.getD []).contains agent.did then ⟨true, none⟩
        else ⟨false, some "Invite required"⟩
      | .nftGated =>
        match ac.nftGate with
        | none => ⟨false, some "NFT gate not configured"⟩
        | some gate =>
          if !hasVerifiedNFT agent gate.contract gate.schema then
            ⟨false, some "Required NFT not found"⟩
          else if natOptTruthy gate.minAmount then
            if countMatchingNFTs agent gate < gate.minAmount.getD 0 then
              ⟨false, some ("Requires at least " ++ toString (gate.minAmount.getD 0) ++ " NFTs")⟩
            else ⟨true, none⟩
          else ⟨true, none⟩

/-- channels.ts `addParticipant`: idempotent on present DIDs; a truthy
`maxParticipants` bound is enforced before appending. -/
def addParticipant (channel : PrivateChannel) (participantDID : String) :
    Except String PrivateChannel :=
  if channel.participants.contains participantDID then .ok channel
  else if natOptTruthy (channel.metadata.bind ChannelMetadata.maxParticipants) &&
          channel.participants.length ≥
            (channel.metadata.bind ChannelMetadata.maxParticipants).getD 0 then
    .error "Channel has reached maximum participants"
  else .ok { channel with participants := channel.participants ++ [participantDID] }

/-- channels.ts `removeParticipant`: only self or the creator may remove,
and the creator is never removable. -/
def removeParticipant (channel : PrivateChannel) (participantDID removerDID : String) :
    Except String PrivateChannel :=
  if channel.createdBy ≠ removerDID ∧ participantDID ≠ removerDID then
    .error "Not authorized to remove participant"
  else if participantDID = channel.createdBy then
    .error "Cannot remove channel creator"
  else
    .ok { channel with
          participants := channel.participants.filter (fun p => p ≠ participantDID) }

/-- The status literal, as it appears in the source's template strings. -/
def InvStatus.text : InvStatus → String
  | .pending => "pending"
  | .accepted => "accepted"
  | .rejected => "rejected"
  | .expired => "expired"

/-- channels.ts `acceptInvitation` (`Date.now()` passed as `now`). -/
def acceptInvitation (now : Nat) (invitation : ChannelInvitation) :
    Except String ChannelInvitation :=
  if invitation.status ≠ .pending then
    .error ("Cannot accept invitation with status: " ++ invitation.status.text)
  else if now > invitation.expiresAt then
    .ok { invitation with status := .expired }
  else
    .ok { invitation with status := .accepted }

/-- channels.ts `rejectInvitation`. -/
def rejectInvitation (invitation : ChannelInvitation) :
    Except String ChannelInvitation :=
  if invitation.status ≠ .pending then
    .error ("Cannot reject invitation with status: " ++ invitation.status.text)
  else
    .ok { invitation with status := .rejected }

/-- channels.ts `validateMessage`: participant check first, then required
fields, then channel-id match. -/
def validateMessage (message : SendMessageRequest) (channel : PrivateChannel)
    (senderDID : String) : Bool × Option String :=
  if !channel.participants.contains senderDID then
    (false, some "Not a channel participant")
  else if message.channelId == "" || message.nonce == "" || message.ciphertext == "" then
    (false, some "Missing required fields")
  else if message.channelId != channel.id then
    (false, some "Channel ID mismatch")
  else
    (true, none)

/-- channels.ts `createEncryptedMessage` (`generateId('msg')` passed as
`msgId`, `Date.now()` as `now`). -/
def createEncryptedMessage (request : SendMessageRequest) (senderDID : String)
    (now : Nat) (msgId : String) : EncryptedMessage :=
  { id := msgId
    channelId := request.channelId
    sender := senderDID
    timestamp := now
    nonce := request.nonce
    ciphertext := request.ciphertext
    ephemeralPubKey := request.ephemeralPubKey }

/-- channels.ts `isMessageExpired`: a falsy channel TTL means never
expired; otherwise expired once `now` passes `timestamp + ttl * 1000`. -/
def isMessageExpired (message : EncryptedMessage) (channel : PrivateChannel)
    (now : Nat) : Bool :=
  match channel.metadata.bind ChannelMetadata.ttl with
  | none => false
  | some ttl =>
    if ttl = 0 then false
    else decide (now > message.timestamp + ttl * 1000)

/-- `Math.max` over a nonempty list of timestamps, `none` when empty. -/
def listMaxTs : List Nat → Option Nat
  | [] => none
  | t :: ts => some (ts.foldl Nat.max t)

/-- The record returned by channels.ts `getChannelStats`. -/
structure ChannelStats where
  participantCount : Nat
  messageCount : Nat
  lastActivity : Option Nat
  isNFTGated : Bool
deriving DecidableEq, Repr

/-- channels.ts `getChannelStats`: statistics over the non-expired
messages only. -/
def getChannelStats (channel : PrivateChannel) (messages : List EncryptedMessage)
    (now : Nat) : ChannelStats :=
  let validMessages := messages.filter (fun m => !isMessageExpired m channel now)
  { participantCount := channel.participants.length
    messageCount := validMessages.length
    lastActivity := listMaxTs (validMessages.map (fun m => m.timestamp))
    isNFTGated :=
      match channel.accessControl with
      | some ac => ac.actype == .nftGated
      | none => false }

/-! ## Channel creation (channels.ts `createChannel`)

`Date.now()` is the `now` parameter, `generateId('ch')` the `chanId`
parameter, `generateId('inv')` an `invId` function of the invitation's
position, and the channel-key wrap for a recipient public key the opaque
`wrapKey` function. -/

/-- The invitation loop of `createChannel`: one invitation per non-creator
entry whose agent resolves, numbered in order. -/
def createInvitations (getAgent : String → Option MoltbookAgent)
    (creatorDID chanId : String) (now : Nat) (invId : Nat → String)
    (wrapKey : String → String) : List String → Nat → List ChannelInvitation
  | [], _ => []
  | did :: rest, k =>
    if did = creatorDID then
      createInvitations getAgent creatorDID chanId now invId wrapKey rest k
    else
      match getAgent did with
      | none => createInvitations getAgent creatorDID chanId now invId wrapKey rest k
      | some agent =>
        { id := invId k
          channelId := chanId
          inviter := creatorDID
          invitee := did
          createdAt := now
          expiresAt := now + 7 * 24 * 60 * 60 * 1000
          encryptedChannelKey := wrapKey agent.publicKey
          status := .pending } ::
        createInvitations getAgent creatorDID chanId now invId wrapKey rest (k + 1)

/-- The `allParticipants` computation of `createChannel`: the creator is
prepended unless already present. -/
def channelParticipants (request : CreateChannelRequest) (creatorDID : String) :
    List String :=
  if request.participants.contains creatorDID then request.participants
  else creatorDID :: request.participants

/-- channels.ts `createChannel`. -/
def createChannel (request : CreateChannelRequest) (creatorDID : String)
    (getAgent : String → Option MoltbookAgent) (now : Nat) (chanId : String)
    (invId : Nat → String) (wrapKey : String → String) :
    Except String (PrivateChannel × List ChannelInvitation) :=
  if request.participants.isEmpty then
    .error "At least one participant is required"
  else
    match (channelParticipants request creatorDID).find?
        (fun did => (getAgent did).isNone) with
    | some did => .error ("Agent not found: " ++ did)
    | none =>
      .ok
        ({ id := chanId
           participants := channelParticipants request creatorDID
           createdAt := now
           createdBy := creatorDID
           encryption :=
             { etype := "e2ee"
               algorithm := "x25519-xsalsa20-poly1305"
               keyRotationInterval := request.keyRotationInterval }
           accessControl :=
             some (request.accessControl.getD ⟨.inviteOnly, none, none⟩)
           metadata := request.metadata },
         createInvitations getAgent creatorDID chanId now invId wrapKey
           (channelParticipants request creatorDID) 0)

/-! ## Message listing (storage.ts `getChannelMessages`)

The R2 bucket's stored message set is the `stored` list (in listing
order); each filter and the final limit use JS truthiness on the option. -/

/-- Pagination options of `getChannelMessages`. -/
structure GetMessagesOptions where
  limit : Option Nat
  before : Option Nat
  after : Option Nat
deriving DecidableEq, Repr

/-- The loop-body filters of `getChannelMessages`: skip when a truthy
`before` is not strictly above the timestamp, or a truthy `after` is not
strictly below it. -/
def passesPagination (options : GetMessagesOptions) (m : EncryptedMessage) : Bool :=
  !(natOptTruthy options.before && m.timestamp ≥ options.before.getD 0) &&
  !(natOptTruthy options.after && m.timestamp ≤ options.after.getD 0)

/-- The `(a, b) => b.timestamp - a.timestamp` comparator: descending by
timestamp. -/
def tsDescending (a b : EncryptedMessage) : Bool := b.timestamp ≤ a.timestamp

/-- storage.ts `getChannelMessages`: filter by truthy `before`/`after`,
sort by timestamp descending (stable), then apply a truthy `limit`. -/
def getChannelMessages (stored : List EncryptedMessage)
    (options : GetMessagesOptions) : List EncryptedMessage :=
  let sorted := (stored.filter (passesPagination options)).mergeSort tsDescending
  if natOptTruthy options.limit then sorted.take (options.limit.getD 0)
  else sorted

/-! ## Send-message endpoint (routes.ts `POST /channels/:id/messages`)

The handler after body parsing: authentication result and channel lookup
are passed as options; a missing agent is 401, a missing channel 404, a
failed validation 400 with no write, success 201 writing one message. -/

/-- Outcome of the send endpoint: HTTP status, error payload, and the
message written to storage (if any). -/
structure PostMessageResult where
  status : Nat
  error : Option String
  written : Option EncryptedMessage
deriving DecidableEq, Repr

/-- routes.ts `POST /channels/:id/messages` handler body. -/
def postChannelMessage (agent : Option MoltbookAgent)
    (channel : Option PrivateChannel) (body : SendMessageRequest)
    (now : Nat) (msgId : String) : PostMessageResult :=
  match agent with
  | none => ⟨401, some "Authentication required", none⟩
  | some ag =>
    match channel with
    | none => ⟨404, some "Channel not found", none⟩
    | some ch =>
      let validation := validateMessage body ch ag.did
      if validation.1 then
        ⟨201, none, some (createEncryptedMessage body ag.did now msgId)⟩
      else
        ⟨400, validation.2, none⟩

/-! ## Sample values used by witnesses and counterexamples -/

/-- An empty default profile with the initial reputation. -/
def sampleProfile : AgentProfile := ⟨none, [], 50, none, none⟩

/-- The reference encryption config built by `createChannel`. -/
def sampleEnc : EncryptionConfig := ⟨"e2ee", "x25519-xsalsa20-poly1305", none⟩

/-- A registered agent. -/
def agentA : MoltbookAgent :=
  ⟨"did:moltbook:agent1111111111111111111111111111", "pkA", 0, sampleProfile⟩

/-- An invite-only two-participant channel created by `creator00…`. -/
def chanA : PrivateChannel :=
  ⟨"ch-1",
   ["did:moltbook:creator00000000000000000000000000",
    "did:moltbook:agent1111111111111111111111111111"],
   0, "did:moltbook:creator00000000000000000000000000", sampleEnc,
   some ⟨.inviteOnly, none, none⟩, none⟩

/-- A single-participant channel whose message TTL is 60 seconds. -/
def ttlCh : PrivateChannel :=
  ⟨"ch-t", ["did:moltbook:agent1111111111111111111111111111"], 0,
   "did:moltbook:agent1111111111111111111111111111", sampleEnc, none,
   some ⟨none, none, none, some 60⟩⟩

/-- A message written at 80000 ms (120000 ms before the reads below). -/
def mOld : EncryptedMessage :=
  ⟨"msg-old", "ch-t", "did:moltbook:agent1111111111111111111111111111", 80000,
   "n1", "c1", none⟩

/-- A message written at 200000 ms (the read time below). -/
def mNew : EncryptedMessage :=
  ⟨"msg-new", "ch-t", "did:moltbook:agent1111111111111111111111111111", 200000,
   "n2", "c2", none⟩

/-- A pending invitation for `agentA` that expires at time 1000. -/
def invA : ChannelInvitation :=
  ⟨"inv-1", "ch-1", "did:moltbook:creator00000000000000000000000000",
   "did:moltbook:agent1111111111111111111111111111", 0, 1000, "wrapped", .pending⟩

/-! ## Claim C1 -/

set_option maxRecDepth 10000 in
/-- Claim C1 (code bug, evaluated at the failing input): `generateDID`
hashes the public key with `sha256`, whose output is *base64*, not hex, so
for the registration key `"test-public-key-base64"` the generated DID
carries base64 (uppercase) characters and fails the module's own
`isValidDID` — contradicting both the claim and the code's own
authentication path, which validates `X-Agent-DID` with `isValidDID`. -/
theorem generateDID_base64_fails_own_validation :
    generateDID "test-public-key-base64" =
      "did:moltbook:EYvXu4KPU6hcBL3plTuZJqWuuJaJzDor" ∧
    isValidDID (generateDID "test-public-key-base64") = false :=
  ⟨rfl, by decide⟩

/-! ## Claim C5 -/

/-- Claim C5 (counterexample): a partial profile update carrying only
`nftCredentials` changes the stored credentials while leaving display
name, capabilities and metadata untouched, so `updateAgentProfile`'s
result does not differ from the original *only* in display name,
capabilities, and opaque metadata. -/
theorem updateAgentProfile_changes_credentials :
    (updateAgentProfile agentA
      ⟨none, none, none, some [⟨"atomicassets", "1", "moltbook.agent", true, none⟩], none⟩).profile.nftCredentials ≠
      agentA.profile.nftCredentials ∧
    (updateAgentProfile agentA
      ⟨none, none, none, some [⟨"atomicassets", "1", "moltbook.agent", true, none⟩], none⟩).profile.name =
      agentA.profile.name ∧
    (updateAgentProfile agentA
      ⟨none, none, none, some [⟨"atomicassets", "1", "moltbook.agent", true, none⟩], none⟩).profile.capabilities =
      agentA.profile.capabilities ∧
    (updateAgentProfile agentA
      ⟨none, none, none, some [⟨"atomicassets", "1", "moltbook.agent", true, none⟩], none⟩).profile.metadata =
      agentA.profile.metadata := by
  refine ⟨?_, rfl, rfl, rfl⟩
  decide

/-- Claim C5 (amended): `updateAgentProfile` can touch display name,
capabilities, NFT credentials and opaque metadata, but never the DID,
public key, creation time or reputation; any sequence of profile updates
preserves reputation exactly; and `adjustReputation` always lands in
`[0, 100]`. -/
theorem updateAgentProfile_frame :
    (∀ (a : MoltbookAgent) (u : ProfileUpdates),
      (updateAgentProfile a u).profile.reputation = a.profile.reputation ∧
      (updateAgentProfile a u).did = a.did ∧
      (updateAgentProfile a u).publicKey = a.publicKey ∧
      (updateAgentProfile a u).createdAt = a.createdAt) ∧
    (∀ (a : MoltbookAgent) (us : List ProfileUpdates),
      (us.foldl updateAgentProfile a).profile.reputation = a.profile.reputation) ∧
    (∀ (a : MoltbookAgent) (d : Int),
      0 ≤ (adjustReputation a d).profile.reputation ∧
      (adjustReputation a d).profile.reputation ≤ 100) := by
  refine ⟨fun a u => ⟨rfl, rfl, rfl, rfl⟩, fun a us => ?_, fun a d => ?_⟩
  · induction us generalizing a with
    | nil => rfl
    | cons u rest ih => simpa [List.foldl_cons] using ih (updateAgentProfile a u)
  · simp only [adjustReputation]
    omega

/-! ## Claim C6 -/

/-- Claim C6 (confirmed): `acceptInvitation` and `rejectInvitation` throw
exactly on non-pending invitations; a pending invitation accepted after
its expiry becomes `expired`, accepted in time becomes `accepted`,
rejected becomes `rejected`; and no output of either operation is ever
`pending` again. -/
theorem invitation_state_machine :
    ∀ (inv : ChannelInvitation) (now : Nat),
      ((∃ e, acceptInvitation now inv = .error e) ↔ inv.status ≠ .pending) ∧
      ((∃ e, rejectInvitation inv = .error e) ↔ inv.status ≠ .pending) ∧
      (inv.status = .pending → now > inv.expiresAt →
        acceptInvitation now inv = .ok { inv with status := .expired }) ∧
      (inv.status = .pending → ¬ now > inv.expiresAt →
        acceptInvitation now inv = .ok { inv with status := .accepted }) ∧
      (inv.status = .pending →
        rejectInvitation inv = .ok { inv with status := .rejected }) ∧
      (∀ inv', acceptInvitation now inv = .ok inv' → inv'.status ≠ .pending) ∧
      (∀ inv', rejectInvitation inv = .ok inv' → inv'.status ≠ .pending) := by
  intro inv now
  obtain ⟨iid, icid, iivr, iive, ica, iea, ieck, ist⟩ := inv
  cases ist <;> by_cases hn : now > iea <;>
    simp_all [acceptInvitation, rejectInvitation] <;>
    · simp only [if_neg (show ¬ iea < now by omega)]
      refine ⟨by simp, ?_⟩
      intro inv' h'
      obtain rfl := (Except.ok.injEq _ _).mp h'
      simp

/-- Claim C6 witness: the spec's expired-acceptance scenario — a pending
invitation whose expiry (1000) is behind the clock (2000) transitions to
`expired` on accept. -/
theorem invitation_state_machine_witness :
    acceptInvitation 2000 invA = .ok { invA with status := .expired } :=
  (invitation_state_machine invA 2000).2.2.1 rfl (by decide)

/-! ## Claim C8 -/

/-- Claim C8 (confirmed): `validateMessage` rejects non-participants first
(`"Not a channel participant"`), then missing/empty required fields
(`"Missing required fields"`), then a channel-id mismatch
(`"Channel ID mismatch"`), and otherwise accepts; and whenever validation
fails, the send endpoint writes no message. -/
theorem validateMessage_rules :
    ∀ (req : SendMessageRequest) (ch : PrivateChannel) (sender : String),
      (sender ∉ ch.participants →
        validateMessage req ch sender = (false, some "Not a channel participant")) ∧
      (sender ∈ ch.participants →
        (req.channelId = "" ∨ req.nonce = "" ∨ req.ciphertext = "") →
        validateMessage req ch sender = (false, some "Missing required fields")) ∧
      (sender ∈ ch.participants → req.channelId ≠ "" → req.nonce ≠ "" →
        req.ciphertext ≠ "" → req.channelId ≠ ch.id →
        validateMessage req ch sender = (false, some "Channel ID mismatch")) ∧
      (sender ∈ ch.participants → req.channelId ≠ "" → req.nonce ≠ "" →
        req.ciphertext ≠ "" → req.channelId = ch.id →
        validateMessage req ch sender = (true, none)) ∧
      (∀ (ag : MoltbookAgent) (now : Nat) (msgId : String),
        (validateMessage req ch ag.did).1 = false →
        (postChannelMessage (some ag) (some ch) req now msgId).written = none) := by
  intro req ch sender
  refine ⟨?_, ?_, ?_, ?_, ?_⟩
  · intro hmem; simp_all [validateMessage]
  · intro hmem hfields; simp_all [validateMessage]
    rcases hfields with h | h | h <;> simp [h]
  · intro hmem h1 h2 h3 hne; simp_all [validateMessage]
  · intro hmem h1 h2 h3 heq; simp_all [validateMessage]
  · intro ag now msgId hv
    simp only [postChannelMessage]
    rw [hv]
    simp

/-- Claim C8 witness: a sender outside the channel is rejected as a
non-participant, and the endpoint stores nothing for that request. -/
theorem validateMessage_rules_witness :
    validateMessage ⟨"ch-1", "n", "c", none⟩ chanA "did:moltbook:outsider000000000000000000000000" =
      (false, some "Not a channel participant") ∧
    (postChannelMessage (some ⟨"did:moltbook:outsider000000000000000000000000", "pk", 0, sampleProfile⟩)
      (some chanA) ⟨"ch-1", "n", "c", none⟩ 5 "msg-1").written = none := by
  constructor
  · exact (validateMessage_rules ⟨"ch-1", "n", "c", none⟩ chanA
      "did:moltbook:outsider000000000000000000000000").1 (by decide)
  · exact (validateMessage_rules ⟨"ch-1", "n", "c", none⟩ chanA
      "did:moltbook:outsider000000000000000000000000").2.2.2.2
      ⟨"did:moltbook:outsider000000000000000000000000", "pk", 0, sampleProfile⟩ 5 "msg-1" (by decide)

/-! ## Claim C10 -/

/-- Claim C10 (confirmed): `addParticipant` on an already-present DID
returns the channel unchanged (no error, regardless of any
`maxParticipants` bound), and the maximum-participants error implies the
DID was not yet a participant. -/
theorem addParticipant_idempotent :
    (∀ (ch : PrivateChannel) (d : String), d ∈ ch.participants →
      addParticipant ch d = .ok ch) ∧
    (∀ (ch : PrivateChannel) (d : String),
      addParticipant ch d = .error "Channel has reached maximum participants" →
      d ∉ ch.participants) := by
  constructor
  · intro ch d hd
    simp [addParticipant, hd]
  · intro ch d herr hd
    simp [addParticipant, hd] at herr

/-- Claim C10 witness: re-adding `agentA` to a channel already containing
it (even one whose `maxParticipants` bound of 2 is already met) returns
the channel unchanged. -/
theorem addParticipant_idempotent_witness :
    addParticipant { chanA with metadata := some ⟨none, none, some 2, none⟩ }
      "did:moltbook:agent1111111111111111111111111111" =
      .ok { chanA with metadata := some ⟨none, none, some 2, none⟩ } :=
  addParticipant_idempotent.1 _ _ (by decide)

/-! ## Claim C2 -/

/-- The channel predicate exactly as the claim states it (for evaluation):
no duplicate participant DIDs, and at most `maxParticipants` participants
whenever that bound is set. -/
def claimedParticipantsOk (ch : PrivateChannel) : Bool :=
  decide ch.participants.Nodup &&
  (match ch.metadata.bind ChannelMetadata.maxParticipants with
   | none => true
   | some M => decide (ch.participants.length ≤ M))

/-- The invariant `addParticipant`/`removeParticipant` actually preserve:
duplicate-free participants, bounded by any *nonzero* `maxParticipants`
(a zero bound is falsy in the source and never enforced). -/
def participantsInvariant (ch : PrivateChannel) : Prop :=
  ch.participants.Nodup ∧
  ∀ M, ch.metadata.bind ChannelMetadata.maxParticipants = some M → M ≠ 0 →
    ch.participants.length ≤ M

/-- An agent lookup under which every DID resolves. -/
def getAgentAll : String → Option MoltbookAgent :=
  fun d => some ⟨d, "pk-" ++ d, 0, sampleProfile⟩

/-- Claim C2 (counterexample): `createChannel` does not establish the
claimed predicate — a request with two invitees and `maxParticipants = 1`
succeeds and yields a three-participant channel over its own bound. -/
theorem createChannel_ignores_max_participants :
    (createChannel
        ⟨["did:moltbook:agent1111111111111111111111111111",
          "did:moltbook:outsider000000000000000000000000"], none, none,
         some ⟨none, none, some 1, none⟩⟩
        "did:moltbook:creator00000000000000000000000000" getAgentAll 0 "ch-1"
        (fun k => "inv-" ++ toString k) (fun pk => pk)).map
      (fun r => claimedParticipantsOk r.1) = .ok false := by rfl

/-- Claim C2 (amended): `addParticipant` and `removeParticipant` preserve
the invariant (no duplicates; within any nonzero `maxParticipants`), and
`createChannel` establishes it provided the requested participant list is
duplicate-free and one below any nonzero bound; in general `createChannel`
neither deduplicates nor checks the bound. -/
theorem participants_invariant_preserved :
    (∀ (ch : PrivateChannel) (d : String) (ch' : PrivateChannel),
      participantsInvariant ch → addParticipant ch d = .ok ch' →
      participantsInvariant ch') ∧
    (∀ (ch : PrivateChannel) (d r : String) (ch' : PrivateChannel),
      participantsInvariant ch → removeParticipant ch d r = .ok ch' →
      participantsInvariant ch') ∧
    (∀ (req : CreateChannelRequest) (creator : String)
      (getAgent : String → Option MoltbookAgent) (now : Nat) (cid : String)
      (invId : Nat → String) (wrapKey : String → String)
      (ch : PrivateChannel) (invs : List ChannelInvitation),
      req.participants.Nodup →
      (∀ M, req.metadata.bind ChannelMetadata.maxParticipants = some M → M ≠ 0 →
        req.participants.length + 1 ≤ M) →
      createChannel req creator getAgent now cid invId wrapKey = .ok (ch, invs) →
      participantsInvariant ch) := by
  refine ⟨?_, ?_, ?_⟩
  · intro ch d ch' hinv hok
    rw [addParticipant] at hok
    by_cases hc : ch.participants.contains d
    · rw [if_pos hc] at hok
      obtain rfl := (Except.ok.injEq _ _).mp hok
      exact hinv
    · rw [if_neg hc] at hok
      split at hok
      · exact absurd hok (by simp)
      · rename_i hguard
        obtain rfl := (Except.ok.injEq _ _).mp hok
        obtain ⟨hnd, hbound⟩ := hinv
        have hdne : d ∉ ch.participants := by simpa using hc
        refine ⟨by simp [List.nodup_append, hnd, hdne], ?_⟩
        intro M hM hM0
        simp only at hM
        rw [hM] at hguard
        simp [natOptTruthy, hM0, -not_and] at hguard
        simp [List.length_append]
        omega
  · intro ch d r ch' hinv hok
    rw [removeParticipant] at hok
    split at hok
    · exact absurd hok (by simp)
    · split at hok
      · exact absurd hok (by simp)
      · obtain rfl := (Except.ok.injEq _ _).mp hok
        obtain ⟨hnd, hbound⟩ := hinv
        refine ⟨hnd.filter _, ?_⟩
        intro M hM hM0
        exact le_trans (List.length_filter_le _ _) (hbound M hM hM0)
  · intro req creator getAgent now cid invId wrapKey ch invs hnd hbound hok
    rw [createChannel] at hok
    split at hok
    · exact absurd hok (by simp)
    · split at hok
      · exact absurd hok (by simp)
      · obtain h := (Except.ok.injEq _ _).mp hok
        obtain rfl : ch = _ := congrArg Prod.fst h.symm
        constructor
        · rw [channelParticipants]
          by_cases hc : creator ∈ req.participants
          · simpa [hc] using hnd
          · simp [hc, List.nodup_cons, hnd]
        · intro M hM hM0
          simp only at hM
          have hlen : (channelParticipants req creator).length ≤
              req.participants.length + 1 := by
            rw [channelParticipants]
            by_cases hc : creator ∈ req.participants <;> simp [hc]
          exact le_trans hlen (hbound M hM hM0)

/-- Claim C2 witness: adding a fresh DID to a duplicate-free unbounded
channel preserves the invariant. -/
theorem participants_invariant_preserved_witness :
    participantsInvariant
      { chanA with
        participants :=
          chanA.participants ++ ["did:moltbook:outsider000000000000000000000000"] } :=
  participants_invariant_preserved.1 chanA
    "did:moltbook:outsider000000000000000000000000" _
    ⟨by decide, fun M hM => by simp [chanA] at hM⟩ rfl

/-! ## Claim C3 -/

/-- `foldl Nat.max` dominates its seed and every element. -/
lemma foldl_max_le (ts : List Nat) (acc : Nat) :
    acc ≤ ts.foldl Nat.max acc ∧ ∀ x ∈ ts, x ≤ ts.foldl Nat.max acc := by
  induction ts generalizing acc with
  | nil => simp
  | cons h t ih =>
    obtain ⟨ih1, ih2⟩ := ih (Nat.max acc h)
    refine ⟨le_trans (Nat.le_max_left _ _) ih1, ?_⟩
    intro x hx
    rcases List.mem_cons.mp hx with rfl | hx
    · exact le_trans (Nat.le_max_right _ _) ih1
    · exact ih2 x hx

/-- `foldl Nat.max` returns its seed or an element. -/
lemma foldl_max_mem (ts : List Nat) (acc : Nat) :
    ts.foldl Nat.max acc = acc ∨ ts.foldl Nat.max acc ∈ ts := by
  induction ts generalizing acc with
  | nil => exact Or.inl rfl
  | cons h t ih =>
    rw [List.foldl_cons]
    rcases ih (Nat.max acc h) with heq | hmem
    · rw [heq]
      have hch : Nat.max acc h = acc ∨ Nat.max acc h = h := by
        by_cases hle : acc ≤ h
        · exact Or.inr (Nat.max_eq_right hle)
        · exact Or.inl (Nat.max_eq_left (Nat.le_of_not_le hle))
      rcases hch with h1 | h1
      · exact Or.inl h1
      · right
        rw [h1]
        exact List.mem_cons_self h t
    · exact Or.inr (List.mem_cons_of_mem h hmem)

/-- `listMaxTs` returns a member that bounds the whole list. -/
lemma listMaxTs_spec {l : List Nat} {t : Nat} (h : listMaxTs l = some t) :
    t ∈ l ∧ ∀ x ∈ l, x ≤ t := by
  cases l with
  | nil => simp [listMaxTs] at h
  | cons a ts =>
    obtain rfl : ts.foldl Nat.max a = t := by simpa [listMaxTs] using h
    obtain ⟨h1, h2⟩ := foldl_max_le ts a
    refine ⟨?_, ?_⟩
    · rcases foldl_max_mem ts a with heq | hmem
      · rw [heq]
        exact List.mem_cons_self a ts
      · exact List.mem_cons_of_mem a hmem
    · intro x hx
      rcases List.mem_cons.mp hx with rfl | hx
      · exact h1
      · exact h2 x hx

/-- `listMaxTs` is `none` exactly on the empty list. -/
lemma listMaxTs_eq_none {l : List Nat} : listMaxTs l = none ↔ l = [] := by
  cases l <;> simp [listMaxTs]

/-- Claim C3 (counterexample, the spec's own 60-second-TTL scenario at
`now = 200000`): the message from `now − 120000` is expired and is
correctly dropped from statistics, yet `getChannelMessages` — the
message-read path — still returns it: reads do not filter expiry. -/
theorem expired_message_still_read :
    isMessageExpired mOld ttlCh 200000 = true ∧
    mOld ∈ getChannelMessages [mOld, mNew] ⟨none, none, none⟩ ∧
    (getChannelStats ttlCh [mOld, mNew] 200000).messageCount = 1 ∧
    (getChannelStats ttlCh [mOld, mNew] 200000).lastActivity = some 200000 := by
  refine ⟨by decide, ?_, by decide, by decide⟩
  simp only [getChannelMessages, natOptTruthy]
  rw [if_neg (by simp), List.mem_mergeSort]
  decide

/-- Claim C3 (amended): with a nonzero channel TTL, a message is expired
exactly when `now − timestamp > ttl × 1000`; statistics count only
non-expired messages, and `lastActivity` is the greatest non-expired
timestamp (`none` exactly when every message is expired) — but the
message-read path returns expired messages too. -/
theorem ttl_expiry_stats :
    ∀ (ch : PrivateChannel) (ttl now : Nat) (msgs : List EncryptedMessage),
      ch.metadata.bind ChannelMetadata.ttl = some ttl → ttl ≠ 0 →
      (∀ m : EncryptedMessage,
        isMessageExpired m ch now = true ↔ now - m.timestamp > ttl * 1000) ∧
      (getChannelStats ch msgs now).messageCount =
        (msgs.filter (fun m => !isMessageExpired m ch now)).length ∧
      (∀ t, (getChannelStats ch msgs now).lastActivity = some t →
        (∃ m ∈ msgs, isMessageExpired m ch now = false ∧ m.timestamp = t) ∧
        ∀ m ∈ msgs, isMessageExpired m ch now = false → m.timestamp ≤ t) ∧
      ((getChannelStats ch msgs now).lastActivity = none ↔
        ∀ m ∈ msgs, isMessageExpired m ch now = true) := by
  intro ch ttl now msgs httl httl0
  refine ⟨?_, rfl, ?_, ?_⟩
  · intro m
    rw [isMessageExpired, httl]
    simp [httl0]
    omega
  · intro t ht
    simp only [getChannelStats] at ht
    obtain ⟨hmem, hmax⟩ := listMaxTs_spec ht
    constructor
    · obtain ⟨m, hm, hts⟩ := List.mem_map.mp hmem
      obtain ⟨hm1, hm2⟩ := List.mem_filter.mp hm
      exact ⟨m, hm1, by simpa using hm2, hts⟩
    · intro m hm hexp
      exact hmax m.timestamp (List.mem_map_of_mem _
        (List.mem_filter.mpr ⟨hm, by simp [hexp]⟩))
  · simp only [getChannelStats]
    rw [listMaxTs_eq_none]
    simp [List.filter_eq_nil_iff]

/-- Claim C3 witness: the amended theorem instantiated at the 60-second
TTL channel and the two scenario messages. -/
theorem ttl_expiry_stats_witness :
    (isMessageExpired mOld ttlCh 200000 = true ↔
      200000 - mOld.timestamp > 60 * 1000) ∧
    (getChannelStats ttlCh [mOld, mNew] 200000).messageCount =
      (List.filter (fun m => !isMessageExpired m ttlCh 200000) [mOld, mNew]).length :=
  ⟨(ttl_expiry_stats ttlCh 60 200000 [mOld, mNew] rfl (by decide)).1 mOld,
   (ttl_expiry_stats ttlCh 60 200000 [mOld, mNew] rfl (by decide)).2.1⟩

/-! ## Claim C4 -/

/-- The gate of the spec's credential scenario: contract `atomicassets`,
schema `moltbook.agent`, no minimum. -/
def nftGateA : NFTGate := ⟨"atomicassets", some "moltbook.agent", none⟩

/-- A credential-gated channel with `agentA` outside its participants. -/
def nftCh : PrivateChannel :=
  ⟨"ch-n", ["did:moltbook:creator00000000000000000000000000"], 0,
   "did:moltbook:creator00000000000000000000000000", sampleEnc,
   some ⟨.nftGated, some nftGateA, none⟩, none⟩

/-- An agent holding a verified credential matching `nftGateA`. -/
def agentNFT : MoltbookAgent :=
  ⟨"did:moltbook:agent2222222222222222222222222222", "pkB", 0,
   ⟨none, [], 50, some [⟨"atomicassets", "7", "moltbook.agent", true, some 1⟩], none⟩⟩

/-- Claim C4 (counterexample): a credential-less non-participant is denied
with reason `"Required NFT not found"`, which is not the claimed
`"Required credential not found"`. -/
theorem nft_denial_reason :
    canAccessChannel nftCh agentA = ⟨false, some "Required NFT not found"⟩ ∧
    (some "Required NFT not found" : Option String) ≠ some "Required credential not found" :=
  ⟨by decide, by decide⟩

/-- Claim C4 (amended): for a configured `nft_gated` channel and a
non-participant, access is allowed exactly when the agent holds a verified
credential on the gate's contract (and its schema, when a non-empty one is
set) and meets any nonzero minimum count; without such a credential the
decision is `{allowed: false, reason: "Required NFT not found"}`. -/
theorem nft_gated_access :
    ∀ (ch : PrivateChannel) (ag : MoltbookAgent) (ac : AccessControl) (gate : NFTGate),
      ch.accessControl = some ac → ac.actype = .nftGated → ac.nftGate = some gate →
      ag.did ∉ ch.participants →
      (((canAccessChannel ch ag).allowed = true) ↔
        (hasVerifiedNFT ag gate.contract gate.schema = true ∧
         ∀ m, gate.minAmount = some m → m ≠ 0 → m ≤ countMatchingNFTs ag gate)) ∧
      (hasVerifiedNFT ag gate.contract gate.schema = false →
        canAccessChannel ch ag = ⟨false, some "Required NFT not found"⟩) := by
  intro ch ag ac gate hac hacty hgate hmem
  obtain ⟨acty, acg, acal⟩ := ac
  simp only at hacty hgate
  subst hacty
  subst hgate
  rw [canAccessChannel, if_neg (by simpa using hmem), hac]
  simp only
  by_cases hnft : hasVerifiedNFT ag gate.contract gate.schema
  · rw [hnft]
    cases hmin : gate.minAmount with
    | none => simp [natOptTruthy, hnft]
    | some m =>
      by_cases hm0 : m = 0
      · subst hm0
        simp [natOptTruthy, hnft]
      · simp only [natOptTruthy, Bool.not_true, Bool.false_eq_true, if_false]
        rw [if_pos (by simp [hm0])]
        simp only [Option.getD_some]
        by_cases hcnt : countMatchingNFTs ag gate < m
        · rw [if_pos hcnt]
          simp only [hnft]
          constructor
          · constructor
            · intro hfalse
              simp at hfalse
            · rintro ⟨-, hall⟩
              have := hall m rfl hm0
              omega
          · intro hfalse
            simp [hnft] at hfalse
        · rw [if_neg hcnt]
          simp only [hnft]
          constructor
          · constructor
            · intro _
              refine ⟨trivial, ?_⟩
              intro m' hm' hm'0
              obtain rfl : m = m' := by injection hm'
              omega
            · intro _
              trivial
          · intro hfalse
            simp [hnft] at hfalse
  · have hnf : hasVerifiedNFT ag gate.contract gate.schema = false := by
      simpa using hnft
    rw [hnf]
    simp [hnf]

/-- Claim C4 witness: the spec's credential scenario — the agent with a
verified `atomicassets`/`moltbook.agent` credential is admitted to the
gated channel. -/
theorem nft_gated_access_witness :
    (canAccessChannel nftCh agentNFT).allowed = true :=
  ((nft_gated_access nftCh agentNFT ⟨.nftGated, some nftGateA, none⟩ nftGateA
      rfl rfl rfl (by decide)).1).mpr
    ⟨by decide, fun m hm => by simp [nftGateA] at hm⟩

/-! ## Claim C7 -/

/-- The invitation loop of `createChannel` invites, in order, exactly the
non-creator entries (counted with multiplicity) when every DID resolves,
each invitation pending with the 7-day expiry. -/
lemma createInvitations_spec (getAgent : String → Option MoltbookAgent)
    (creator cid : String) (now : Nat) (invId : Nat → String)
    (wrapKey : String → String) :
    ∀ (l : List String) (k : Nat),
      (∀ d ∈ l, (getAgent d).isSome = true) →
      ((createInvitations getAgent creator cid now invId wrapKey l k).map
          (fun i => i.invitee) = l.filter (fun d => d ≠ creator)) ∧
      (∀ inv ∈ createInvitations getAgent creator cid now invId wrapKey l k,
        inv.status = .pending ∧ inv.createdAt = now ∧
        inv.expiresAt = now + 7 * 86400000) := by
  intro l
  induction l with
  | nil =>
    intro k _
    simp [createInvitations]
  | cons d rest ih =>
    intro k hall
    have hrest : ∀ x ∈ rest, (getAgent x).isSome = true :=
      fun x hx => hall x (List.mem_cons_of_mem d hx)
    by_cases hd : d = creator
    · obtain ⟨ih1, ih2⟩ := ih k hrest
      simp only [createInvitations, if_pos hd]
      refine ⟨?_, ih2⟩
      rw [ih1, List.filter_cons]
      simp [hd]
    · obtain ⟨ag, hag⟩ := Option.isSome_iff_exists.mp
        (hall d (List.mem_cons_self d rest))
      obtain ⟨ih1, ih2⟩ := ih (k + 1) hrest
      simp only [createInvitations, if_neg hd, hag]
      constructor
      · rw [List.map_cons, ih1, List.filter_cons]
        simp [hd]
      · intro inv hinv
        rcases List.mem_cons.mp hinv with rfl | hinv
        · exact ⟨rfl, rfl, by norm_num⟩
        · exact ih2 inv hinv

/-- The creator always belongs to the computed participant set. -/
lemma creator_mem_channelParticipants (req : CreateChannelRequest)
    (creator : String) : creator ∈ channelParticipants req creator := by
  rw [channelParticipants]
  by_cases hc : creator ∈ req.participants
  · simp [hc]
  · simp [hc]

/-- Claim C7 (counterexample): a request listing the same invitee twice
produces two invitations for that one participant, so `createChannel` does
not emit exactly one invitation per non-creator participant. -/
theorem duplicate_invitee_two_invitations :
    (createChannel
        ⟨["did:moltbook:agent1111111111111111111111111111",
          "did:moltbook:agent1111111111111111111111111111"], none, none, none⟩
        "did:moltbook:creator00000000000000000000000000" getAgentAll 7 "ch-7"
        (fun k => "inv-" ++ toString k) (fun pk => pk)).map
      (fun r => r.2.map (fun i => i.invitee)) =
      .ok ["did:moltbook:agent1111111111111111111111111111",
           "did:moltbook:agent1111111111111111111111111111"] := by rfl

/-- Claim C7 (amended): `createChannel` fails on an empty invitee list
(and on any unresolvable DID); on success the creator is a participant,
the invitations' invitees are exactly the non-creator entries of the
participant list in order (one per entry — so one per participant only
when the request is duplicate-free), and every invitation is pending with
expiry 7 × 86,400,000 ms after its creation time. -/
theorem createChannel_spec :
    ∀ (req : CreateChannelRequest) (creator : String)
      (getAgent : String → Option MoltbookAgent) (now : Nat) (cid : String)
      (invId : Nat → String) (wrapKey : String → String),
      (req.participants = [] →
        createChannel req creator getAgent now cid invId wrapKey =
          .error "At least one participant is required") ∧
      ((∃ d ∈ channelParticipants req creator, getAgent d = none) →
        ∀ r, createChannel req creator getAgent now cid invId wrapKey ≠ .ok r) ∧
      (req.participants ≠ [] →
        (∀ d ∈ channelParticipants req creator, (getAgent d).isSome = true) →
        ∃ r, createChannel req creator getAgent now cid invId wrapKey = .ok r) ∧
      (∀ ch invs,
        createChannel req creator getAgent now cid invId wrapKey = .ok (ch, invs) →
        creator ∈ ch.participants ∧
        ch.participants = channelParticipants req creator ∧
        invs.map (fun i => i.invitee) =
          ch.participants.filter (fun d => d ≠ creator) ∧
        ∀ inv ∈ invs, inv.status = .pending ∧ inv.createdAt = now ∧
          inv.expiresAt = inv.createdAt + 7 * 86400000) := by
  intro req creator getAgent now cid invId wrapKey
  refine ⟨?_, ?_, ?_, ?_⟩
  · intro h
    rw [createChannel, if_pos (by simp [h])]
  · rintro ⟨d, hd, hnone⟩ r hok
    rw [createChannel] at hok
    split at hok
    · exact absurd hok (by simp)
    · split at hok
      · exact absurd hok (by simp)
      · rename_i hfind
        have h := List.find?_eq_none.mp hfind d hd
        rw [hnone] at h
        simp at h
  · intro hne hall
    rw [createChannel, if_neg (by simp [hne])]
    have hfind : (channelParticipants req creator).find?
        (fun did => (getAgent did).isNone) = none := by
      rw [List.find?_eq_none]
      intro x hx
      have h := hall x hx
      simp only [Option.isNone_iff_eq_none]
      intro hn
      rw [hn] at h
      simp at h
    rw [hfind]
    exact ⟨_, rfl⟩
  · intro ch invs hok
    rw [createChannel] at hok
    split at hok
    · exact absurd hok (by simp)
    · split at hok
      · exact absurd hok (by simp)
      · rename_i hfind
        simp only [Except.ok.injEq, Prod.mk.injEq] at hok
        obtain ⟨rfl, rfl⟩ := hok
        have hall : ∀ d ∈ channelParticipants req creator,
            (getAgent d).isSome = true := by
          intro x hx
          have h := List.find?_eq_none.mp hfind x hx
          simp only [Option.isNone_iff_eq_none] at h
          simpa [Option.isSome_iff_ne_none] using h
        obtain ⟨hmap, hprops⟩ := createInvitations_spec getAgent creator cid now
          invId wrapKey (channelParticipants req creator) 0 hall
        refine ⟨creator_mem_channelParticipants req creator, rfl, hmap, ?_⟩
        intro inv hinv
        obtain ⟨hst, hca, hexp⟩ := hprops inv hinv
        exact ⟨hst, hca, by rw [hca]; exact hexp⟩

/-- Claim C7 witness: an empty invitee list is rejected with the exact
error of the source. -/
theorem createChannel_spec_witness :
    createChannel ⟨[], none, none, none⟩
      "did:moltbook:creator00000000000000000000000000" getAgentAll 0 "ch-0"
      (fun k => "inv-" ++ toString k) (fun pk => pk) =
      .error "At least one participant is required" :=
  (createChannel_spec ⟨[], none, none, none⟩
    "did:moltbook:creator00000000000000000000000000" getAgentAll 0 "ch-0"
    (fun k => "inv-" ++ toString k) (fun pk => pk)).1 rfl

/-! ## Claim C9 -/

/-- Claim C9 (counterexample): with `limit = 0` supplied, the listing
returns all messages (a zero limit is falsy and ignored), violating
"at most `limit` messages whenever a limit is supplied". -/
theorem limit_zero_returns_all :
    (getChannelMessages [mOld, mNew] ⟨some 0, none, none⟩).length = 2 ∧
    ¬ ((getChannelMessages [mOld, mNew] ⟨some 0, none, none⟩).length ≤ 0) := by
  have h : (getChannelMessages [mOld, mNew] ⟨some 0, none, none⟩).length = 2 := by
    simp only [getChannelMessages, natOptTruthy]
    rw [if_neg (by simp), List.length_mergeSort]
    decide
  exact ⟨h, by omega⟩

/-- Claim C9 (amended): every returned message comes from the store and
respects a nonzero `before` strictly from above and a nonzero `after`
strictly from below; results are sorted by timestamp descending; and a
*nonzero* `limit` bounds the result length (a zero limit, before or after
is falsy in the source and ignored). -/
theorem message_pagination :
    ∀ (stored : List EncryptedMessage) (opts : GetMessagesOptions),
      (∀ m ∈ getChannelMessages stored opts,
        m ∈ stored ∧
        (∀ b, opts.before = some b → b ≠ 0 → m.timestamp < b) ∧
        (∀ a, opts.after = some a → a ≠ 0 → a < m.timestamp)) ∧
      List.Pairwise (fun x y : EncryptedMessage => y.timestamp ≤ x.timestamp)
        (getChannelMessages stored opts) ∧
      (∀ L, opts.limit = some L → L ≠ 0 →
        (getChannelMessages stored opts).length ≤ L) := by
  intro stored opts
  have hmem : ∀ m ∈ getChannelMessages stored opts,
      m ∈ stored.filter (passesPagination opts) := by
    intro m hm
    simp only [getChannelMessages] at hm
    by_cases hlim : natOptTruthy opts.limit
    · rw [if_pos hlim] at hm
      exact List.mem_mergeSort.mp (List.mem_of_mem_take hm)
    · rw [if_neg hlim] at hm
      exact List.mem_mergeSort.mp hm
  refine ⟨?_, ?_, ?_⟩
  · intro m hm
    obtain ⟨hin, hpass⟩ := List.mem_filter.mp (hmem m hm)
    refine ⟨hin, ?_, ?_⟩
    · intro b hb hb0
      rw [passesPagination, hb] at hpass
      simp [natOptTruthy, hb0] at hpass
      omega
    · intro a ha ha0
      rw [passesPagination, ha] at hpass
      simp [natOptTruthy, ha0] at hpass
      omega
  · have hs : List.Pairwise (fun a b => tsDescending a b = true)
        ((stored.filter (passesPagination opts)).mergeSort tsDescending) :=
      List.sorted_mergeSort
        (fun a b c h1 h2 => by
          simp only [tsDescending, decide_eq_true_eq] at *
          omega)
        (fun a b => by
          simp only [tsDescending, Bool.or_eq_true, decide_eq_true_eq]
          omega)
        (stored.filter (passesPagination opts))
    have hs' : List.Pairwise
        (fun x y : EncryptedMessage => y.timestamp ≤ x.timestamp)
        ((stored.filter (passesPagination opts)).mergeSort tsDescending) :=
      hs.imp (fun h => by simpa [tsDescending] using h)
    simp only [getChannelMessages]
    by_cases hlim : natOptTruthy opts.limit
    · rw [if_pos hlim]
      exact hs'.take
    · rw [if_neg hlim]
      exact hs'
  · intro L hL hL0
    simp only [getChannelMessages]
    rw [if_pos (show natOptTruthy opts.limit = true by simp [natOptTruthy, hL, hL0]), hL]
    simp only [Option.getD_some]
    rw [List.length_take]
    exact min_le_left _ _

/-- Claim C9 witness: a limit of 1 over the two stored scenario messages
bounds the result to one message. -/
theorem message_pagination_witness :
    (getChannelMessages [mOld, mNew] ⟨some 1, none, none⟩).length ≤ 1 :=
  (message_pagination [mOld, mNew] ⟨some 1, none, none⟩).2.2 1 rfl (by decide)

end Moltbook
